import Mathlib

/-!
# Verification of the SSI overpayment waiver overflow engine

Shallow embedding of `docassemble/ssioverpaymentwaiver/addendum.py`
(`ALAddendumField.safe_value`, `ALAddendumField.overflow_value`,
`ALAddendumField.max_lines`, `ALAddendumFieldDict.has_overflow`,
`ALAddendumFieldDict.defined_fields`) and of
`docassemble/ssioverpaymentwaiver/ssa.py` (`is_valid_ssn`).

Strings are modelled as `List Char`; Python's `int`/`bool` arithmetic on the
overflow trigger is modelled through `PyTrigger.toNat` (`True` behaves as the
integer `1` in Python arithmetic and slicing).  Regular-expression
substitutions appearing in the source are embedded as the concrete list
transformations they denote on the source's patterns.
-/

/-- A character class test mirroring the character class `[\r\n]` of the
pattern `[\r\n]+|\r+|\n+` used throughout `addendum.py`: that alternation
matches exactly the maximal runs of carriage returns and line feeds. -/
def isNl (c : Char) : Bool :=
  c == '\r' || c == '\n'

/-- Worker for `collapseRuns`: the `inRun` flag records whether the previous
character belonged to a run of CR/LF characters already replaced. -/
def collapseAux (repl : Char) : Bool → List Char → List Char
  | _, [] => []
  | inRun, c :: cs =>
    if isNl c then
      if inRun then collapseAux repl true cs
      else repl :: collapseAux repl true cs
    else c :: collapseAux repl false cs

/-- `re.sub(r"[\r\n]+|\r+|\n+", repl, value)` for a one-character replacement
`repl`: every maximal run of CR/LF characters becomes the single character
`repl`.  `addendum.py` uses it with `repl = ' '` (single-line mode) and
`repl = '\n'` (newline-preserving mode and `overflow_value`). -/
def collapseRuns (repl : Char) (l : List Char) : List Char :=
  collapseAux repl false l

/-- The whitespace characters stripped by Python's `str.rstrip()`
(the ASCII whitespace set `' '`, `'\t'`, `'\n'`, `'\r'`, `'\x0b'`, `'\x0c'`;
the embedding is exact for ASCII text). -/
def isPySpace (c : Char) : Bool :=
  c == ' ' || c == '\t' || c == '\n' || c == '\r' || c == '\x0b' || c == '\x0c'

/-- Python's `str.rstrip()`: remove trailing whitespace. -/
def pyRstrip (l : List Char) : List Char :=
  (l.reverse.dropWhile isPySpace).reverse

/-- Replace `'\n'` by `' '`, leaving every other character alone: the
pointwise difference between the two normalizations of `addendum.py`
(collapse to a space on line 169/171, collapse to a newline on line 77/139). -/
def nlToSpace (c : Char) : Char :=
  if c = '\n' then ' ' else c

/-- `re.sub(r"[\r\n]+|\r+|\n+", " ", value).rstrip()` — the normalization
applied by `safe_value` in single-line mode (lines 169 and 171). -/
def collapse_to_space_and_rstrip (s : List Char) : List Char :=
  pyRstrip (collapseRuns ' ' s)

/-- `re.sub(r"[\r\n]+|\r+|\n+", r"\n", value).rstrip()` — the normalization
applied by `overflow_value` (line 77) and by the newline-preserving branch of
`safe_value` (line 139). -/
def collapse_to_newline_and_rstrip (s : List Char) : List Char :=
  pyRstrip (collapseRuns '\n' s)

/-- Python's `value.split('\n')`: split on every `'\n'`, keeping empty
pieces; the split of the empty string is `[""]`. -/
def splitNl : List Char → List (List Char)
  | [] => [[]]
  | c :: cs =>
    if c = '\n' then [] :: splitNl cs
    else
      match splitNl cs with
      | [] => [[c]]
      | h :: t => (c :: h) :: t

/-- `ALAddendumField.max_lines` (addendum.py line 98):
`int(max(self.overflow_trigger - overflow_message_length, 0) / input_width) + 1`.
Truncated `Nat` subtraction realizes `max(· - ·, 0)` and `Nat` division the
floor of the quotient (Python's float division agrees with the exact floor
throughout the representable range of the spec's scenarios). -/
def max_lines (overflow_trigger input_width overflow_message_length : Nat) : Nat :=
  (overflow_trigger - overflow_message_length) / input_width + 1

/-- The inner `while` of `safe_value`'s newline-preserving branch
(lines 153-156): while `line <= max_lines` and the current paragraph is
non-empty, emit its first `input_width` characters and drop them, bumping
`line`.  Returns the emitted text, the rest of the paragraph, and the final
`line` counter. -/
def chunkLoop (input_width maxLines line : Nat) (p : List Char) :
    List Char × List Char × Nat :=
  if line ≤ maxLines ∧ p ≠ [] then
    let r := chunkLoop input_width maxLines (line + 1) (p.drop input_width)
    (p.take input_width ++ r.1, r.2.1, r.2.2)
  else ([], p, line)
termination_by maxLines + 1 - line
decreasing_by simp_all; omega

/-- The outer `while` of `safe_value`'s newline-preserving branch
(lines 144-159).  One step consumes one paragraph: a paragraph no longer
than `input_width` takes one output line (line 146-149); a longer one is
sliced by `chunkLoop`, after which the loop either moves to the next
paragraph or stops because the line budget ran out.  The boolean result is
`len(paras) > para` at exit (line 161): whether paragraphs remain. -/
def packLoop (input_width maxLines : Nat) : Nat → List (List Char) → List Char × Bool
  | _, [] => ([], false)
  | line, p :: rest =>
    if line ≤ maxLines then
      if p.length ≤ input_width then
        let r := packLoop input_width maxLines (line + 1) rest
        (p ++ '\n' :: r.1, r.2)
      else
        let c := chunkLoop input_width maxLines line p
        if c.2.1 = [] then
          let r := packLoop input_width maxLines c.2.2 rest
          (c.1 ++ '\n' :: r.1, r.2)
        else (c.1, true)
    else ([], true)

/-- `ALAddendumField.safe_value` (addendum.py lines 108-171) restricted to a
string-valued field with the trigger already reduced to its Python integer
value.  Mirrors, in order: the early return of line 128 (short single-line
values pass through untouched), the newline-preserving packer of lines
136-164, and the single-line truncation of lines 166-171. -/
def safe_value_str (overflow_trigger : Nat) (overflow_message : List Char)
    (input_width : Nat) (preserve_newlines : Bool) (value : List Char) : List Char :=
  if value.length ≤ overflow_trigger ∧ value.count '\r' + value.count '\n' = 0 then
    value
  else
    let maxLines := max_lines overflow_trigger input_width overflow_message.length
    let maxChars := overflow_trigger - overflow_message.length
    if preserve_newlines ∧ 1 < maxLines then
      let v := collapse_to_newline_and_rstrip value
      let pr := packLoop input_width maxLines 1 (splitNl v)
      if pr.2 then pyRstrip pr.1 ++ overflow_message else pr.1
    else if overflow_trigger < value.length then
      (collapse_to_space_and_rstrip value).take maxChars ++ overflow_message
    else
      (collapse_to_space_and_rstrip value).take maxChars

/-- `ALAddendumField.overflow_value` (addendum.py lines 60-89) restricted to a
string-valued field with a non-boolean (integer) trigger: recompute the safe
text, compare it against the newline-collapsed right-stripped original, and
on mismatch return the suffix starting at
`max(len(safe_text) - len(overflow_message), 0)` (truncated `Nat`
subtraction). -/
def overflow_value_str (overflow_trigger : Nat) (overflow_message : List Char)
    (input_width : Nat) (preserve_newlines : Bool) (value : List Char) : List Char :=
  let safe_text := safe_value_str overflow_trigger overflow_message input_width
      preserve_newlines value
  let value_to_process := collapse_to_newline_and_rstrip value
  if safe_text = value_to_process then []
  else value_to_process.drop (safe_text.length - overflow_message.length)

/-- The two shapes of `ALAddendumField.overflow_trigger` the source handles
(`int | bool`, class docstring line 51). -/
inductive PyTrigger where
  | bool (b : Bool)
  | int (n : Nat)
deriving DecidableEq

/-- Python's implicit `bool → int` coercion: in every arithmetic, comparison
or slicing context of `safe_value`, `True` is `1` and `False` is `0`. -/
def PyTrigger.toNat : PyTrigger → Nat
  | .bool b => if b then 1 else 0
  | .int n => n

/-- The field values the overflow engine can slice: strings and lists
(the class docstring, lines 47-48, limits the supported items to strings and
list-like objects; list elements are modelled as strings). -/
inductive FieldValue where
  | str (s : List Char)
  | list (xs : List (List Char))
deriving DecidableEq

/-- `len(...)` of a field value. -/
def FieldValue.length : FieldValue → Nat
  | .str s => s.length
  | .list xs => xs.length

/-- Python truthiness of a string or list value: non-emptiness.  Used by
`has_overflow` (`if field.overflow_value():`) and, through `len`, by
`defined_fields` (`if len(field.overflow_value())`). -/
def FieldValue.isTruthy : FieldValue → Bool
  | .str s => !s.isEmpty
  | .list xs => !xs.isEmpty

/-- `ALAddendumField`: the trigger together with the externally resolved
value (the result `value_if_defined()` would produce; an undefined source
variable resolves to the empty string, lines 180-187). -/
structure ALAddendumField where
  overflow_trigger : PyTrigger
  value : FieldValue
deriving DecidableEq

/-- `ALAddendumField.safe_value` (lines 108-178) on the full value model:
strings go through `safe_value_str` with the trigger coerced to its integer
value (the method never tests `isinstance(trigger, bool)`); lists are sliced
to their first `overflow_trigger` elements (line 175). -/
def ALAddendumField.safe_value (f : ALAddendumField) (overflow_message : List Char)
    (input_width : Nat) (preserve_newlines : Bool) : FieldValue :=
  match f.value with
  | .str s =>
    .str (safe_value_str f.overflow_trigger.toNat overflow_message input_width
      preserve_newlines s)
  | .list xs => .list (xs.take f.overflow_trigger.toNat)

/-- `ALAddendumField.overflow_value` (lines 60-92): a boolean `True` trigger
returns the entire value (line 67); otherwise strings use the safe-text
complement and lists the suffix from index `overflow_trigger` (line 92). -/
def ALAddendumField.overflow_value (f : ALAddendumField) (preserve_newlines : Bool)
    (input_width : Nat) (overflow_message : List Char) : FieldValue :=
  if f.overflow_trigger = .bool true then f.value
  else
    match f.value with
    | .str s =>
      .str (overflow_value_str f.overflow_trigger.toNat overflow_message input_width
        preserve_newlines s)
    | .list xs => .list (xs.drop f.overflow_trigger.toNat)

/-- `safe_value` as an explicit state transformer on the field object: the
method reads `self.overflow_trigger` and the resolved value and binds only
local variables (the list `paras` it mutates on line 155 is the local result
of `value.split`), so the object it returns alongside the result is the
object it was given. -/
def ALAddendumField.safe_value_call (f : ALAddendumField) (overflow_message : List Char)
    (input_width : Nat) (preserve_newlines : Bool) : FieldValue × ALAddendumField :=
  (f.safe_value overflow_message input_width preserve_newlines, f)

/-- `ALAddendumFieldDict.has_overflow` (lines 344-352) over the dictionary's
values in insertion order (a `DAOrderedDict` iterates in insertion order):
the early-returning `for` loop is `List.any`. -/
def has_overflow (fields : List ALAddendumField) : Bool :=
  fields.any fun f => (f.overflow_value false 80 []).isTruthy

/-- `ALAddendumFieldDict.defined_fields(style='overflow_only')` (lines
336-337): the fields whose `overflow_value()` has non-zero length, in
insertion order.  (The `style ≠ 'overflow_only'` branch consults the host
platform's `defined()` and is outside the claims.) -/
def defined_fields_overflow_only (fields : List ALAddendumField) : List ALAddendumField :=
  fields.filter fun f => (f.overflow_value false 80 []).isTruthy

/-- The core of the pattern `^\d{3}-\d{2}-\d{4}$` of `is_valid_ssn`
(ssa.py line 13): three digits, a hyphen, two digits, a hyphen, four digits,
spanning the whole input (`\d` modelled as the ASCII digits; exact for ASCII
text). -/
def matches_core : List Char → Bool
  | [a, b, c, h1, d, e, h2, f, g, i, j] =>
    a.isDigit && b.isDigit && c.isDigit && h1 == '-' && d.isDigit && e.isDigit &&
      h2 == '-' && f.isDigit && g.isDigit && i.isDigit && j.isDigit
  | _ => false

/-- `bool(re.match(r'^\d{3}-\d{2}-\d{4}$', x))`: Python's `$` matches at the
end of the string or just before one newline at the end of the string, so the
pattern accepts exactly the core, or the core followed by a single trailing
`'\n'`. -/
def ssn_match (x : List Char) : Bool :=
  matches_core x || (x.getLast? == some '\n' && matches_core x.dropLast)

/-- `is_valid_ssn` (ssa.py lines 10-16): `validation_error(...)` raises, so
the function either raises with the fixed message (`Except.error`) or falls
through to `return True` (`Except.ok true`). -/
def is_valid_ssn (x : List Char) : Except (List Char) Bool :=
  if ¬ ssn_match x then
    .error ("Write the Social Security Number like this: XXX-XX-XXXX".toList)
  else .ok true

/-! ## Relating the two normalizations -/

/-- `nlToSpace` is idempotent. -/
theorem nlToSpace_nlToSpace (c : Char) : nlToSpace (nlToSpace c) = nlToSpace c := by
  unfold nlToSpace
  by_cases h : c = '\n' <;> simp [h]

/-- `nlToSpace` preserves membership in Python's whitespace class. -/
theorem isPySpace_nlToSpace (c : Char) : isPySpace (nlToSpace c) = isPySpace c := by
  unfold nlToSpace
  by_cases h : c = '\n' <;> simp [h, isPySpace]

/-- A character that is not CR/LF is fixed by `nlToSpace`. -/
theorem nlToSpace_of_not_isNl {c : Char} (h : isNl c = false) : nlToSpace c = c := by
  unfold nlToSpace
  simp only [isNl, Bool.or_eq_false_iff, beq_eq_false_iff_ne, ne_eq] at h
  simp [h.2]

/-- Collapsing runs to a space is collapsing them to a newline followed by the
pointwise replacement of every `'\n'` with `' '`. -/
theorem collapseAux_space_eq_map (l : List Char) :
    ∀ b, collapseAux ' ' b l = (collapseAux '\n' b l).map nlToSpace := by
  induction l with
  | nil => intro b; rfl
  | cons c cs ih =>
    intro b
    by_cases h : isNl c
    · cases b <;> simp [collapseAux, h, ih, nlToSpace]
    · have hc : nlToSpace c = c := nlToSpace_of_not_isNl (by simpa using h)
      simp [collapseAux, h, ih, hc]

/-- `dropWhile isPySpace` commutes with the `nlToSpace` replacement. -/
theorem dropWhile_isPySpace_map_nlToSpace (l : List Char) :
    (l.map nlToSpace).dropWhile isPySpace = (l.dropWhile isPySpace).map nlToSpace := by
  induction l with
  | nil => rfl
  | cons c cs ih =>
    simp only [List.map_cons, List.dropWhile_cons, isPySpace_nlToSpace]
    by_cases h : isPySpace c <;> simp [h, ih]

/-- `rstrip` commutes with the `nlToSpace` replacement. -/
theorem pyRstrip_map_nlToSpace (l : List Char) :
    pyRstrip (l.map nlToSpace) = (pyRstrip l).map nlToSpace := by
  unfold pyRstrip
  rw [← List.map_reverse, dropWhile_isPySpace_map_nlToSpace, List.map_reverse]

/-- The single-line normalization is the newline normalization with every
`'\n'` replaced by `' '`. -/
theorem collapse_space_eq_map_collapse_newline (s : List Char) :
    collapse_to_space_and_rstrip s = (collapse_to_newline_and_rstrip s).map nlToSpace := by
  unfold collapse_to_space_and_rstrip collapse_to_newline_and_rstrip collapseRuns
  rw [collapseAux_space_eq_map, pyRstrip_map_nlToSpace]

/-- A second application of the replacement changes nothing. -/
theorem map_nlToSpace_map_nlToSpace (l : List Char) :
    (l.map nlToSpace).map nlToSpace = l.map nlToSpace := by
  rw [List.map_map]
  exact List.map_congr_left fun c _ => nlToSpace_nlToSpace c

/-! ## Values without CR/LF characters -/

/-- On a list without CR/LF characters the run-collapsing substitution is the
identity, whatever state the scanner is in. -/
theorem collapseAux_of_no_nl {l : List Char} (h : ∀ c ∈ l, isNl c = false) :
    ∀ (r : Char) (b : Bool), collapseAux r b l = l := by
  induction l with
  | nil => intro r b; rfl
  | cons c cs ih =>
    intro r b
    have hc : isNl c = false := h c (by simp)
    simp [collapseAux, hc, ih fun d hd => h d (by simp [hd])]

/-- `value.count('\r') + value.count('\n') == 0` says no character of the
value is CR or LF. -/
theorem no_nl_of_count_eq_zero {s : List Char}
    (h : s.count '\r' + s.count '\n' = 0) : ∀ c ∈ s, isNl c = false := by
  intro c hc
  have h1 : s.count '\r' = 0 := by omega
  have h2 : s.count '\n' = 0 := by omega
  rw [List.count_eq_zero] at h1 h2
  simp only [isNl, Bool.or_eq_false_iff, beq_eq_false_iff_ne, ne_eq]
  exact ⟨fun hr => h1 (hr ▸ hc), fun hn => h2 (hn ▸ hc)⟩

/-! ## Branch lemmas for `safe_value_str` -/

/-- The early return of line 128: a string within the trigger and free of
CR/LF comes back untouched. -/
theorem safe_value_str_early {overflow_trigger : Nat} {value : List Char}
    (overflow_message : List Char) (input_width : Nat) (preserve_newlines : Bool)
    (hlen : value.length ≤ overflow_trigger)
    (hnl : value.count '\r' + value.count '\n' = 0) :
    safe_value_str overflow_trigger overflow_message input_width preserve_newlines value
      = value := by
  simp only [safe_value_str]
  rw [if_pos ⟨hlen, hnl⟩]

/-- Line 169: in single-line mode a string strictly longer than the trigger is
collapsed, right-stripped, truncated to `max(trigger - len(message), 0)`
characters and suffixed with the overflow message. -/
theorem safe_value_str_of_long {overflow_trigger : Nat} {value : List Char}
    (overflow_message : List Char) (input_width : Nat)
    (h : overflow_trigger < value.length) :
    safe_value_str overflow_trigger overflow_message input_width false value
      = (collapse_to_space_and_rstrip value).take
          (overflow_trigger - overflow_message.length) ++ overflow_message := by
  simp only [safe_value_str]
  rw [if_neg (by rintro ⟨h1, -⟩; omega), if_neg (by simp), if_pos h]

/-- Line 171: in single-line mode a string within the trigger that does
contain a line break is collapsed, right-stripped and truncated to
`max(trigger - len(message), 0)` characters, with no message appended. -/
theorem safe_value_str_of_short_with_nl {overflow_trigger : Nat} {value : List Char}
    (overflow_message : List Char) (input_width : Nat)
    (hlen : value.length ≤ overflow_trigger)
    (hnl : 0 < value.count '\r' + value.count '\n') :
    safe_value_str overflow_trigger overflow_message input_width false value
      = (collapse_to_space_and_rstrip value).take
          (overflow_trigger - overflow_message.length) := by
  simp only [safe_value_str]
  rw [if_neg (by rintro ⟨-, h2⟩; omega), if_neg (by simp), if_neg (by omega)]

/-- `pyRstrip` is Mathlib's `List.rdropWhile` at the Python whitespace
class. -/
theorem pyRstrip_eq_rdropWhile (l : List Char) :
    pyRstrip l = List.rdropWhile isPySpace l := rfl

/-- C5.  `max_lines(input_width, overflow_message_length)` computes
`floor(max(overflow_trigger - overflow_message_length, 0) / input_width) + 1`,
stated over the integers so that the inner `max(·, 0)` is visible. -/
theorem c5_max_lines_formula (overflow_trigger overflow_message_length input_width : Nat)
    (hw : 0 < input_width) :
    (max_lines overflow_trigger input_width overflow_message_length : Int)
      = max ((overflow_trigger : Int) - (overflow_message_length : Int)) 0
          / (input_width : Int) + 1 := by
  have h1 : max ((overflow_trigger : Int) - (overflow_message_length : Int)) 0
      = ((overflow_trigger - overflow_message_length : Nat) : Int) := by omega
  rw [h1, max_lines]
  push_cast [Int.natCast_div]
  ring

/-- C5 witness: the spec's own scenario `trigger = 160`, `input_width = 80`,
message length `0`. -/
theorem c5_max_lines_formula_witness :
    0 < 80 ∧ (max_lines 160 80 0 : Int) = max ((160 : Int) - (0 : Int)) 0 / (80 : Int) + 1 :=
  ⟨by decide, c5_max_lines_formula 160 0 80 (by decide)⟩

/-- C6.  For a list-valued field with an integer trigger, `safe_value` is the
first `overflow_trigger` elements (hence at most `overflow_trigger` of them),
`overflow_value` is the elements from index `overflow_trigger` on, and the two
concatenate back to the original list. -/
theorem c6_sequence_field_split (n : Nat) (xs : List (List Char)) (overflow_message : List Char)
    (input_width : Nat) (preserve_newlines : Bool) :
    ALAddendumField.safe_value ⟨.int n, .list xs⟩ overflow_message input_width preserve_newlines
        = .list (xs.take n) ∧
    (xs.take n).length ≤ n ∧
    ALAddendumField.overflow_value ⟨.int n, .list xs⟩ preserve_newlines input_width
        overflow_message = .list (xs.drop n) ∧
    xs.take n ++ xs.drop n = xs := by
  refine ⟨rfl, ?_, ?_, List.take_append_drop n xs⟩
  · exact List.length_take_le n xs
  · simp [ALAddendumField.overflow_value, PyTrigger.toNat]

/-- C8.  `safe_value` as a state transformer leaves the field object exactly as
it found it, and a second call on the returned object with the same arguments
returns the same text: the method reads `self` but never writes it, so the
embedding threads the state unchanged and idempotence is definitional. -/
theorem c8_safe_value_idempotent_no_mutation (f : ALAddendumField)
    (overflow_message : List Char) (input_width : Nat) (preserve_newlines : Bool) :
    (f.safe_value_call overflow_message input_width preserve_newlines).2 = f ∧
    ((f.safe_value_call overflow_message input_width preserve_newlines).2.safe_value_call
        overflow_message input_width preserve_newlines).1
      = (f.safe_value_call overflow_message input_width preserve_newlines).1 :=
  ⟨rfl, rfl⟩

/-- C2 counterexample.  For the boolean trigger `True` and the value
`"hello"`, `safe_value()` (default arguments) does not return the empty
string: `True` is arithmetically `1`, so line 169 returns the first
`max(1 - 0, 0) = 1` characters, `"h"`. -/
theorem c2_counterexample_safe_value_not_empty :
    ¬ ALAddendumField.safe_value ⟨.bool true, .str "hello".toList⟩ [] 80 false
        = .str [] := by
  decide

/-- C2 amended.  With a boolean `True` trigger, `overflow_value()` does return
the full value unchanged, but `safe_value()` has no boolean special case and
treats `True` as the integer `1`; on `"hello"` with an empty overflow message
it returns `"h"`, not `""`. -/
theorem c2_amended_bool_trigger :
    (∀ (v : FieldValue) (preserve_newlines : Bool) (input_width : Nat)
        (overflow_message : List Char),
      ALAddendumField.overflow_value ⟨.bool true, v⟩ preserve_newlines input_width
          overflow_message = v) ∧
    (∀ (v : FieldValue) (overflow_message : List Char) (input_width : Nat)
        (preserve_newlines : Bool),
      ALAddendumField.safe_value ⟨.bool true, v⟩ overflow_message input_width
          preserve_newlines
        = ALAddendumField.safe_value ⟨.int 1, v⟩ overflow_message input_width
            preserve_newlines) ∧
    ALAddendumField.safe_value ⟨.bool true, .str "hello".toList⟩ [] 80 false
      = .str "h".toList := by
  refine ⟨?_, ?_, by decide⟩
  · intro v p w m
    simp [ALAddendumField.overflow_value]
  · intro v m w p
    cases v <;> rfl

/-- C10.  A string within an integer trigger that contains a line break takes
the line-171 path in single-line mode: it is collapsed, right-stripped and
truncated to `overflow_trigger - len(overflow_message)` characters with no
overflow message appended, silently dropping up to `len(overflow_message)`
trailing characters. -/
theorem c10_short_multiline_truncated (overflow_trigger input_width : Nat)
    (overflow_message s : List Char)
    (hlen : s.length ≤ overflow_trigger) (hm : overflow_message ≠ [])
    (hnl : 0 < s.count '\r' + s.count '\n') :
    safe_value_str overflow_trigger overflow_message input_width false s
      = (collapse_to_space_and_rstrip s).take
          (overflow_trigger - overflow_message.length) :=
  safe_value_str_of_short_with_nl overflow_message input_width hlen hnl

/-- C10 witness: `s = "ab\ncdefghi"` (10 characters, trigger 10, message
`".."`): the result is `"ab cdefg"`, so `"hi"` was dropped with no marker. -/
theorem c10_short_multiline_truncated_witness :
    "ab\ncdefghi".toList.length ≤ 10 ∧ "..".toList ≠ ([] : List Char) ∧
    0 < "ab\ncdefghi".toList.count '\r' + "ab\ncdefghi".toList.count '\n' ∧
    safe_value_str 10 "..".toList 80 false "ab\ncdefghi".toList
      = (collapse_to_space_and_rstrip "ab\ncdefghi".toList).take
          (10 - "..".toList.length) :=
  ⟨by decide, by decide, by decide,
    c10_short_multiline_truncated 10 80 "..".toList "ab\ncdefghi".toList
      (by decide) (by decide) (by decide)⟩

/-- C3 counterexample.  `s = "abc "` (trailing space), trigger 10, message
`"..."`: `safe_value` returns `"abc "` unmodified (line 128), but
`overflow_value` compares it against the right-stripped `"abc"`, sees a
mismatch, and returns `"abc"[max(4 - 3, 0):] = "bc"` — not the empty
string. -/
theorem c3_counterexample_trailing_space :
    ¬ (safe_value_str 10 "...".toList 80 false "abc ".toList = "abc ".toList ∧
       overflow_value_str 10 "...".toList 80 false "abc ".toList = []) := by
  decide

/-- C3 amended.  For a string within an integer trigger, with no CR/LF
characters *and no trailing whitespace*, `safe_value` returns it unmodified
and `overflow_value` returns the empty string, for every overflow message.
(The trailing-whitespace hypothesis is forced: line 128 returns the value
unstripped while line 77 compares against its stripped form.) -/
theorem c3_amended_short_single_line (overflow_trigger input_width : Nat)
    (overflow_message s : List Char)
    (hlen : s.length ≤ overflow_trigger)
    (hnl : s.count '\r' + s.count '\n' = 0)
    (hr : pyRstrip s = s) :
    safe_value_str overflow_trigger overflow_message input_width false s = s ∧
    overflow_value_str overflow_trigger overflow_message input_width false s = [] := by
  have hsafe : safe_value_str overflow_trigger overflow_message input_width false s = s :=
    safe_value_str_early overflow_message input_width false hlen hnl
  have hvtp : collapse_to_newline_and_rstrip s = s := by
    unfold collapse_to_newline_and_rstrip collapseRuns
    rw [collapseAux_of_no_nl (no_nl_of_count_eq_zero hnl), hr]
  refine ⟨hsafe, ?_⟩
  simp only [overflow_value_str, hsafe, hvtp, if_pos]

/-- C3 witness: `s = "abc"`, trigger 10, message `"..."`. -/
theorem c3_amended_short_single_line_witness :
    "abc".toList.length ≤ 10 ∧
    "abc".toList.count '\r' + "abc".toList.count '\n' = 0 ∧
    pyRstrip "abc".toList = "abc".toList ∧
    safe_value_str 10 "...".toList 80 false "abc".toList = "abc".toList ∧
    overflow_value_str 10 "...".toList 80 false "abc".toList = [] := by
  refine ⟨by decide, by decide, by decide, ?_, ?_⟩
  · exact (c3_amended_short_single_line 10 80 "...".toList "abc".toList
      (by decide) (by decide) (by decide)).1
  · exact (c3_amended_short_single_line 10 80 "...".toList "abc".toList
      (by decide) (by decide) (by decide)).2

/-- C7.  `has_overflow` is true exactly when some registered field's
`overflow_value()` is non-empty, and with field `A` overflowing and field `B`
not, `defined_fields(style='overflow_only')` keeps exactly `[A]`, in
insertion order. -/
theorem c7_overflow_aggregation (fields : List ALAddendumField) (A B : ALAddendumField)
    (hA : (A.overflow_value false 80 []).isTruthy = true)
    (hB : (B.overflow_value false 80 []).isTruthy = false) :
    (has_overflow fields = true ↔
      ∃ f ∈ fields, (f.overflow_value false 80 []).isTruthy = true) ∧
    defined_fields_overflow_only [A, B] = [A] := by
  constructor
  · simp [has_overflow, List.any_eq_true]
  · simp [defined_fields_overflow_only, hA, hB]

/-- C7 witness: `A` has trigger 3 and value `"abcdef"` (overflow `"def"`);
`B` has trigger 10 and value `"hi"` (no overflow). -/
theorem c7_overflow_aggregation_witness :
    ((⟨.int 3, .str "abcdef".toList⟩ : ALAddendumField).overflow_value false 80 []).isTruthy
        = true ∧
    ((⟨.int 10, .str "hi".toList⟩ : ALAddendumField).overflow_value false 80 []).isTruthy
        = false ∧
    ((has_overflow [⟨.int 3, .str "abcdef".toList⟩, ⟨.int 10, .str "hi".toList⟩] = true ↔
        ∃ f ∈ [(⟨.int 3, .str "abcdef".toList⟩ : ALAddendumField),
               ⟨.int 10, .str "hi".toList⟩],
          (f.overflow_value false 80 []).isTruthy = true) ∧
      defined_fields_overflow_only
          [⟨.int 3, .str "abcdef".toList⟩, ⟨.int 10, .str "hi".toList⟩]
        = [⟨.int 3, .str "abcdef".toList⟩]) :=
  ⟨by decide, by decide,
    c7_overflow_aggregation _ _ _ (by decide) (by decide)⟩

/-- The compiled regular expression accepts a string exactly when it is the
core `NNN-NN-NNNN` shape or that shape followed by one `'\n'`. -/
theorem ssn_match_eq_true_iff (x : List Char) :
    ssn_match x = true ↔
      matches_core x = true ∨ ∃ y, matches_core y = true ∧ x = y ++ ['\n'] := by
  unfold ssn_match
  rw [Bool.or_eq_true, Bool.and_eq_true]
  apply or_congr Iff.rfl
  constructor
  · rintro ⟨h1, h2⟩
    have hlast : x.getLast? = some '\n' := by simpa using h1
    obtain ⟨l2, rfl⟩ := List.getLast?_eq_some_iff.mp hlast
    exact ⟨l2, by simpa [List.dropLast_concat] using h2, rfl⟩
  · rintro ⟨y, hy, rfl⟩
    exact ⟨by simp, by simpa [List.dropLast_concat] using hy⟩

/-- C9 counterexample.  `"123-45-6789\n"` is not of the exact form
`NNN-NN-NNNN` (it has a trailing newline), yet `is_valid_ssn` accepts it
without raising: Python's `$` matches just before a trailing newline. -/
theorem c9_counterexample_trailing_newline :
    is_valid_ssn "123-45-6789\n".toList = .ok true ∧
    matches_core "123-45-6789\n".toList = false := by
  exact ⟨rfl, rfl⟩

/-- C9 amended.  `is_valid_ssn` either raises the fixed validation message or
returns `True`, and it returns `True` exactly when the input is `NNN-NN-NNNN`
(three digits, hyphen, two digits, hyphen, four digits) or that same shape
followed by a single trailing newline; every other input raises. -/
theorem c9_amended_ssn_validation (x : List Char) :
    (is_valid_ssn x = .ok true ∨
      is_valid_ssn x
        = .error "Write the Social Security Number like this: XXX-XX-XXXX".toList) ∧
    (is_valid_ssn x = .ok true ↔
      matches_core x = true ∨ ∃ y, matches_core y = true ∧ x = y ++ ['\n']) := by
  by_cases h : ssn_match x = true
  · refine ⟨Or.inl ?_, ?_⟩
    · simp [is_valid_ssn, h]
    · simp only [is_valid_ssn, h, not_true_eq_false, if_false, true_iff]
      exact (ssn_match_eq_true_iff x).mp h
  · refine ⟨Or.inr ?_, ?_⟩
    · simp [is_valid_ssn, h]
    · rw [← ssn_match_eq_true_iff]
      simp [is_valid_ssn, h]

/-! ## The newline-preserving branch on two short paragraphs -/

/-- Collapsing runs over a single `'\n'` separating two CR/LF-free paragraphs
changes only the separator (into the replacement character). -/
theorem collapseRuns_para_append {p1 p2 : List Char} (r : Char)
    (h1 : ∀ c ∈ p1, isNl c = false) (h2 : ∀ c ∈ p2, isNl c = false) :
    collapseRuns r (p1 ++ '\n' :: p2) = p1 ++ r :: p2 := by
  unfold collapseRuns
  induction p1 with
  | nil =>
    simp only [List.nil_append, collapseAux, isNl]
    norm_num
    exact collapseAux_of_no_nl h2 r true
  | cons c cs ih =>
    have hc : isNl c = false := h1 c (by simp)
    have ih2 := ih fun d hd => h1 d (by simp [hd])
    simp only [List.cons_append, collapseAux, hc, Bool.false_eq_true, if_false]
    simpa using ih2

/-- `rstrip` keeps a string whose tail part is already stripped and
non-empty. -/
theorem pyRstrip_append {a b : List Char} (hb : pyRstrip b = b) (hne : b ≠ []) :
    pyRstrip (a ++ b) = a ++ b := by
  rw [pyRstrip_eq_rdropWhile] at hb ⊢
  rw [List.rdropWhile_eq_self_iff] at hb ⊢
  intro h
  rw [List.getLast_append' a b hne]
  exact hb hne

/-- `split('\n')` of a newline-free string is the one-element list. -/
theorem splitNl_of_no_nl {l : List Char} (h : ∀ c ∈ l, c ≠ '\n') :
    splitNl l = [l] := by
  induction l with
  | nil => rfl
  | cons c cs ih =>
    have hc : c ≠ '\n' := h c (by simp)
    rw [splitNl, if_neg hc, ih fun d hd => h d (by simp [hd])]

/-- `split('\n')` peels off a leading newline-free paragraph. -/
theorem splitNl_para_append {p1 p2 : List Char} (h1 : ∀ c ∈ p1, c ≠ '\n') :
    splitNl (p1 ++ '\n' :: p2) = p1 :: splitNl p2 := by
  induction p1 with
  | nil => simp [splitNl]
  | cons c cs ih =>
    have hc : c ≠ '\n' := h1 c (by simp)
    rw [List.cons_append, splitNl, if_neg hc, ih fun d hd => h1 d (by simp [hd])]

/-- Two paragraphs that each fit in the input width are packed one per output
line by the paragraph loop, with line budget 3 and no paragraph left over. -/
theorem packLoop_two_short {p1 p2 : List Char} (input_width : Nat)
    (h1 : p1.length ≤ input_width) (h2 : p2.length ≤ input_width) :
    packLoop input_width 3 1 [p1, p2] = (p1 ++ '\n' :: (p2 ++ ['\n']), false) := by
  simp [packLoop, h1, h2]

/-- C4 counterexample.  With trigger 160, width 80 and message length 0,
`max_lines` is `int(160/80) + 1 = 3`, not 2 (the spec's own formula gives 3 as
well). -/
theorem c4_counterexample_max_lines :
    ¬ max_lines 160 80 0 = 2 := by
  decide

/-- C4 amended.  `max_lines` evaluates to 3 (not 2); with
`preserve_newlines=True`, trigger 160, width 80 and an empty message, a value
of two CR/LF-free paragraphs of at most 80 characters each (the second
non-empty with no trailing whitespace) is packed one paragraph per output
line, each line ended by `'\n'`, with no overflow marker appended. -/
theorem c4_amended_two_paragraphs (p1 p2 : List Char)
    (h1 : ∀ c ∈ p1, isNl c = false) (h2 : ∀ c ∈ p2, isNl c = false)
    (hl1 : p1.length ≤ 80) (hl2 : p2.length ≤ 80)
    (hne : p2 ≠ []) (hr : pyRstrip p2 = p2) :
    max_lines 160 80 0 = 3 ∧
    safe_value_str 160 [] 80 true (p1 ++ '\n' :: p2)
      = p1 ++ '\n' :: (p2 ++ ['\n']) := by
  refine ⟨rfl, ?_⟩
  have hcount : ¬ ((p1 ++ '\n' :: p2).length ≤ 160 ∧
      (p1 ++ '\n' :: p2).count '\r' + (p1 ++ '\n' :: p2).count '\n' = 0) := by
    rintro ⟨-, h⟩
    simp only [List.count_append, List.count_cons_self] at h
    omega
  have hnorm : collapse_to_newline_and_rstrip (p1 ++ '\n' :: p2) = p1 ++ '\n' :: p2 := by
    unfold collapse_to_newline_and_rstrip
    rw [collapseRuns_para_append '\n' h1 h2]
    have : p1 ++ '\n' :: p2 = (p1 ++ ['\n']) ++ p2 := by simp
    rw [this, pyRstrip_append hr hne, ← this]
  have hp1 : ∀ c ∈ p1, c ≠ '\n' := by
    intro c hc
    have := h1 c hc
    simp [isNl] at this
    exact this.2
  have hp2 : ∀ c ∈ p2, c ≠ '\n' := by
    intro c hc
    have := h2 c hc
    simp [isNl] at this
    exact this.2
  have hsplit : splitNl (p1 ++ '\n' :: p2) = [p1, p2] := by
    rw [splitNl_para_append hp1, splitNl_of_no_nl hp2]
  simp only [safe_value_str]
  rw [if_neg hcount, if_pos (by simp [max_lines]), hnorm, hsplit]
  have hml : max_lines 160 80 ([] : List Char).length = 3 := by decide
  rw [hml, packLoop_two_short 80 hl1 hl2]
  simp

/-- C4 witness: paragraphs `"hi"` and `"yo"` give `"hi\nyo\n"`. -/
theorem c4_amended_two_paragraphs_witness :
    max_lines 160 80 0 = 3 ∧
    safe_value_str 160 [] 80 true "hi\nyo".toList = "hi\nyo\n".toList :=
  c4_amended_two_paragraphs "hi".toList "yo".toList
    (by decide) (by decide) (by decide) (by decide) (by decide) (by decide)

/-- C1 counterexample.  Trigger 3, empty message, `s = "abcd\nef"`
(`len(s) = 7 > 3`): the safe value is `"abc"` and the overflow value is
`"d\nef"`; their concatenation is the newline-collapsed `"abcd\nef"`, not the
whitespace-collapsed `"abcd ef"` — the newline that fell into the overflow
region survives as `'\n'`, so the whitespace-normalized original is not
reconstructed. -/
theorem c1_counterexample_mixed_normalization :
    ¬ ((safe_value_str 3 [] 80 false "abcd\nef".toList).length ≤ 3 ∧
       (safe_value_str 3 [] 80 false "abcd\nef".toList).take
           ((safe_value_str 3 [] 80 false "abcd\nef".toList).length
             - ([] : List Char).length)
         ++ overflow_value_str 3 [] 80 false "abcd\nef".toList
         = collapse_to_space_and_rstrip "abcd\nef".toList) := by
  decide

/-- Splitting a list at the realized length of a `take` reassembles it. -/
theorem take_append_drop_take {α : Type} (k : Nat) (l : List α) :
    l.take k ++ l.drop (l.take k).length = l := by
  rw [List.length_take]
  rcases le_total k l.length with h | h
  · rw [min_eq_left h, List.take_append_drop]
  · rw [min_eq_right h, List.drop_length, List.take_of_length_le h, List.append_nil]

/-- C1 amended.  In single-line mode, for `len(s) > trigger` and a message no
longer than the trigger, `len(safe_value(s)) ≤ trigger` counting the appended
marker; and the safe value with the marker removed, concatenated with the
overflow value, reconstructs the normalized `s` exactly once — no duplication,
no loss — up to the one difference the code forces: separators that fall in
the overflow part stay `'\n'` (the `overflow_value` normalization) where the
safe part uses `' '`, so the reconstruction equals the whitespace-collapsed
`s` after mapping `'\n'` to `' '`.  The last hypothesis rules out the corner
in which a non-empty marker coincides with the overflowing tail and makes
`overflow_value`'s no-overflow test (line 78) fire spuriously, losing the
tail. -/
theorem c1_amended_single_line_split (overflow_trigger input_width : Nat)
    (overflow_message s : List Char)
    (hlen : overflow_trigger < s.length)
    (hm : overflow_message.length ≤ overflow_trigger)
    (hcol : overflow_message = [] ∨
      safe_value_str overflow_trigger overflow_message input_width false s
        ≠ collapse_to_newline_and_rstrip s) :
    (safe_value_str overflow_trigger overflow_message input_width false s).length
        ≤ overflow_trigger ∧
    ((safe_value_str overflow_trigger overflow_message input_width false s).take
        ((safe_value_str overflow_trigger overflow_message input_width false s).length
          - overflow_message.length)
      ++ overflow_value_str overflow_trigger overflow_message input_width false s).map
        nlToSpace
      = collapse_to_space_and_rstrip s := by
  have hsafe := safe_value_str_of_long overflow_message input_width hlen
  have hS : collapse_to_space_and_rstrip s
      = (collapse_to_newline_and_rstrip s).map nlToSpace :=
    collapse_space_eq_map_collapse_newline s
  rw [hsafe] at hcol ⊢
  simp only [overflow_value_str, hsafe]
  rw [List.length_append, Nat.add_sub_cancel, List.take_left]
  set N := collapse_to_newline_and_rstrip s with hNdef
  set A := (collapse_to_space_and_rstrip s).take
    (overflow_trigger - overflow_message.length) with hAdef
  have hmapA : A.map nlToSpace = A := by
    rw [hAdef, hS, ← List.map_take, map_nlToSpace_map_nlToSpace]
  have hAlen : A.length = min (overflow_trigger - overflow_message.length) N.length := by
    rw [hAdef, List.length_take, hS, List.length_map]
  constructor
  · have : A.length ≤ overflow_trigger - overflow_message.length := by
      rw [hAlen]; exact Nat.min_le_left _ _
    omega
  · by_cases hEq : A ++ overflow_message = N
    · have hm0 : overflow_message = [] := by
        rcases hcol with hm0 | hne
        · exact hm0
        · exact absurd hEq hne
      subst hm0
      rw [List.append_nil] at hEq
      rw [if_pos (by rw [List.append_nil]; exact hEq), List.append_nil,
        hmapA, hS, ← hEq, hmapA]
    · rw [if_neg hEq]
      rw [List.map_append, hmapA, List.map_drop, ← hS]
      have htk : A = (collapse_to_space_and_rstrip s).take A.length := by
        conv_lhs => rw [hAdef]
        rw [List.take_eq_take, hAlen, hS, List.length_map]
        have := Nat.min_le_right (overflow_trigger - overflow_message.length) N.length
        omega
      rw [htk]
      exact take_append_drop_take _ _

/-- C1 witness: trigger 3, empty message, `s = "abcd\nef"`. -/
theorem c1_amended_single_line_split_witness :
    3 < "abcd\nef".toList.length ∧ ([] : List Char).length ≤ 3 ∧
    ((safe_value_str 3 [] 80 false "abcd\nef".toList).length ≤ 3 ∧
     ((safe_value_str 3 [] 80 false "abcd\nef".toList).take
        ((safe_value_str 3 [] 80 false "abcd\nef".toList).length
          - ([] : List Char).length)
       ++ overflow_value_str 3 [] 80 false "abcd\nef".toList).map nlToSpace
       = collapse_to_space_and_rstrip "abcd\nef".toList) :=
  ⟨by decide, by decide,
    c1_amended_single_line_split 3 80 [] "abcd\nef".toList (by decide) (by decide)
      (Or.inl rfl)⟩
